import Mathlib

/-!
Verification of the multicloud-operators-subscription core against its
specification.  The development shallowly embeds the two source files

  * `pkg/controller/mcmhub/mcmhub_controller.go`
      (`ReconcileSubscription.Reconcile`, `subscriptionMapper.Map`)
  * `pkg/webhook/listener/github_events.go`
      (`handleGithubWebhook`, `ParseRequest`, `validateSecret`)

as executable Lean functions.  External collaborators (the object store,
the hub propagation routine, the go-github parsing and signature
primitives, the yaml decoder) are passed in as explicit function
parameters, mirroring the narrow interfaces of §6 of the specification.
Go strings are Lean `String`s; Go maps with `""`-defaulting reads are
association lists read through a defaulting lookup.
-/

namespace MCOSub

/-! ## Go string primitives

The listener uses `strings.Split(s, "/")`, `strings.Contains` and
`strings.EqualFold`.  They are modelled over the character list of a
`String` so that every definition reduces in the kernel. -/

/-- `strings.Split(s, sep)` for the one-character separator `c`:
splitting the empty list yields one empty field, and every occurrence of
`c` starts a new field. -/
def splitCharAux (c : Char) : List Char → List (List Char)
  | [] => [[]]
  | x :: xs =>
    let r := splitCharAux c xs
    if x == c then [] :: r
    else
      match r with
      | [] => [[x]]
      | h :: t => (x :: h) :: t

/-- Go `strings.Split(s, "/")`. -/
def goSplitSlash (s : String) : List String :=
  (splitCharAux '/' s.data).map String.mk

/-- Does `pat` occur as a contiguous block of `l`? -/
def infixAt (pat : List Char) : List Char → Bool
  | [] => pat.isEmpty
  | c :: cs => pat.isPrefixOf (c :: cs) || infixAt pat cs

/-- Go `strings.Contains(s, pat)`. -/
def goContains (s pat : String) : Bool := infixAt pat.data s.data

/-- Lower-case an ASCII letter, the identity elsewhere. -/
def asciiLower (c : Char) : Char :=
  if 'A' ≤ c && c ≤ 'Z' then Char.ofNat (c.toNat + 32) else c

/-- Go `strings.EqualFold` (restricted to the ASCII fold, which is all the
channel-type comparison needs). -/
def goEqualFold (a b : String) : Bool :=
  a.data.map asciiLower == b.data.map asciiLower

/-- A Go `map[string]string` read, which yields `""` for a missing key. -/
def lookupStr (m : List (String × String)) (k : String) : String :=
  match m.find? (fun kv => kv.1 == k) with
  | some kv => kv.2
  | none => ""

/-- A Go `map[string][]byte` read, which yields `nil` (here `none`) for a
missing key. -/
def lookupData (m : List (String × String)) (k : String) : Option String :=
  (m.find? (fun kv => kv.1 == k)).map (fun kv => kv.2)

/-! ## Data model (§3 of the specification) -/

/-- `types.NamespacedName`. -/
structure NamespacedName where
  ns : String
  name : String
deriving DecidableEq, Repr

/-- `types.NamespacedName{}.String()` is `Namespace + "/" + Name` of the
zero value, the reserved key that represents "local" in the per-cluster
status map. -/
def localkey : String := "/"

/-- Phase constant `appv1alpha1.SubscriptionPropagated`. -/
def SubscriptionPropagated : String := "Propagated"

/-- Phase constant `appv1alpha1.SubscriptionFailed`. -/
def SubscriptionFailed : String := "Failed"

/-- Phase constant `appv1alpha1.SubscriptionSubscribed`. -/
def SubscriptionSubscribed : String := "Subscribed"

/-- `SubscriptionStatus`: phase, reason, message, a last-update timestamp
(nanoseconds as `Nat`), and the per-cluster status map.  The map is an
association list from cluster key to an opaque per-cluster payload
(`Nat`); `none` models a `nil` Go map, which the controller treats
differently from an empty one. -/
structure SubscriptionStatus where
  phase : String
  message : String
  reason : String
  lastUpdateTime : Nat
  statuses : Option (List (String × Nat))
deriving DecidableEq, Repr

/-- `Placement`: the controller only inspects whether `PlacementRef`,
`Clusters` and `ClusterSelector` are `nil`, so each field keeps just
enough structure to make that test meaningful. -/
structure Placement where
  placementRef : Option NamespacedName
  clusters : Option (List String)
  clusterSelector : Option (List (String × String))
  localPlacement : Option Bool
deriving DecidableEq, Repr

/-- `SubscriptionSpec`: the channel reference `"ns/name"` and the
placement. -/
structure SubscriptionSpec where
  channel : String
  placement : Option Placement
deriving DecidableEq, Repr

/-- A subscription object: identity, annotations (`none` models a `nil`
annotation map), spec and status. -/
structure Subscription where
  ns : String
  name : String
  annotations : Option (List (String × String))
  spec : SubscriptionSpec
  status : SubscriptionStatus
deriving DecidableEq, Repr

/-- `GetAnnotations()[k]`, which yields `""` on a `nil` map as well as on
a missing key. -/
def lookupAnn (a : Option (List (String × String))) (k : String) : String :=
  match a with
  | none => ""
  | some m => lookupStr m k

/-! ## StatusReconciler (`ReconcileSubscription.Reconcile`) -/

/-- The hub-mode test of line 204 of the controller:
`pl != nil && (pl.PlacementRef != nil || pl.Clusters != nil || pl.ClusterSelector != nil)`. -/
def isHubMode (sub : Subscription) : Bool :=
  match sub.spec.placement with
  | none => false
  | some pl => pl.placementRef.isSome || pl.clusters.isSome || pl.clusterSelector.isSome

/-- Status transform of the hub branch (lines 205–211): run
`doMCMHubReconcile` (its outcome is the parameter `hubRes`), set the
phase to `Propagated`, and on error overwrite it with `Failed` and the
error text as the reason. -/
def hubStatus (st : SubscriptionStatus) (hubRes : Except String Unit) : SubscriptionStatus :=
  let st := { st with phase := SubscriptionPropagated }
  match hubRes with
  | .ok _ => st
  | .error e => { st with phase := SubscriptionFailed, reason := e }

/-- Status transform of the non-hub branch (lines 213–233): run
`clearSubscriptionDpls` (outcome `clearRes`), record its failure, reset
phase/message/reason unless the phase is `Failed` or `Subscribed`, and
strip every per-cluster entry whose key is not the reserved local key. -/
def nonHubStatus (st : SubscriptionStatus) (clearRes : Except String Unit) : SubscriptionStatus :=
  let st :=
    match clearRes with
    | .ok _ => st
    | .error e => { st with phase := SubscriptionFailed, reason := e }
  let st :=
    if st.phase ≠ SubscriptionFailed ∧ st.phase ≠ SubscriptionSubscribed then
      { st with phase := "", message := "", reason := "" }
    else st
  match st.statuses with
  | none => st
  | some l => { st with statuses := some (l.filter (fun kv => kv.1 == localkey)) }

/-- The recomputed status of one reconcile pass, before the
timestamp/write step. -/
def computeStatus (sub : Subscription) (hubRes clearRes : Except String Unit) :
    SubscriptionStatus :=
  if isHubMode sub then hubStatus sub.status hubRes else nonHubStatus sub.status clearRes

/-- The phase the status carries right after the clear routine's error
handling (lines 214–218), which is what the reset test of line 220
inspects. -/
def phaseAfterClear (st : SubscriptionStatus) (clearRes : Except String Unit) : String :=
  match clearRes with
  | .ok _ => st.phase
  | .error _ => SubscriptionFailed

/-- `reconcile.Result`: `RequeueAfter` in nanoseconds. -/
structure ReconcileResult where
  requeue : Bool := false
  requeueAfter : Nat := 0
deriving DecidableEq, Repr

/-- `1 * time.Second` in nanoseconds. -/
def oneSecond : Nat := 1000000000

/-- The outcome of the fetch that opens `Reconcile`. -/
inductive FetchResult where
  | found (sub : Subscription)
  | notFound
  | fetchError (e : String)
deriving Repr

/-- What one `Reconcile` call produced: the controller-runtime result,
the returned error, the in-memory object at exit (`none` when the fetch
yielded nothing), and whether a status update call was issued against
the store. -/
structure ReconcileOutcome where
  result : ReconcileResult
  error : Option String
  finalSub : Option Subscription
  wrote : Bool
deriving Repr

/-- `ReconcileSubscription.Reconcile` (lines 182–253).  `updateRes` is
the store's answer to the status update call, an optimistic-concurrency
conflict being an `error`; `now` is `metav1.Now()`.  The status is
snapshotted (`orgst`), recomputed, and written back only when the two
differ, in which case the timestamp is refreshed just before the write;
a failed write only schedules a one-second redelivery and is never
returned as an error. -/
def Reconcile (fetch : FetchResult) (hubRes clearRes : Except String Unit)
    (now : Nat) (updateRes : Except String Unit) : ReconcileOutcome :=
  match fetch with
  | .notFound => ⟨{}, none, none, false⟩
  | .fetchError e => ⟨{}, some e, none, false⟩
  | .found inst =>
    let orgst := inst.status
    let newst := computeStatus inst hubRes clearRes
    if newst = orgst then
      ⟨{}, none, some { inst with status := newst }, false⟩
    else
      let newst := { newst with lastUpdateTime := now }
      let inst := { inst with status := newst }
      match updateRes with
      | .ok _ => ⟨{}, none, some inst, true⟩
      | .error _ => ⟨{ requeueAfter := oneSecond }, none, some inst, true⟩

/-! ## RollingUpdateMapper (`subscriptionMapper.Map`) -/

/-- The rolling-update-target annotation key
(`appv1alpha1.AnnotationRollingUpdateTarget`, declared in the api
package outside `src/`; the claims only depend on it being one fixed
key). -/
def AnnotationRollingUpdateTarget : String := "app.ibm.com/rollingupdate-target"

/-- The hosting-subscription annotation key (declared outside `src/`). -/
def AnnotationHostingSubscription : String := "app.ibm.com/hosting-subscription"

/-- The metadata of the changed object handed to the mapper
(`handler.MapObject`): name, namespace and annotations. -/
structure ObjMeta where
  ns : String
  name : String
  annotations : Option (List (String × String))
deriving DecidableEq, Repr

/-- Modelled from the spec: `utils.GetHostSubscriptionFromObject` lives
in the `utils` package, which is not under `src/`.  Per §3 and §4.2 of
the specification the changed object may carry a "hosting-subscription"
back-reference annotation naming one subscription, which this helper
returns as an optional namespaced name (a malformed or absent reference
yields `none`). -/
def GetHostSubscriptionFromObject (obj : ObjMeta) : Option NamespacedName :=
  match lookupAnn obj.annotations AnnotationHostingSubscription with
  | "" => none
  | v =>
    match goSplitSlash v with
    | [a, b] => some ⟨a, b⟩
    | _ => none

/-- Is `sub` appended by the rolling-update loop of `Map`
(lines 99–118)?  The loop skips a subscription whose annotation map is
`nil` or whose target annotation is empty, then skips it when the target
is not the changed object's name. -/
def rollingTargets (obj : ObjMeta) (sub : Subscription) : Bool :=
  if sub.annotations == none || lookupAnn sub.annotations AnnotationRollingUpdateTarget == "" then
    false
  else if lookupAnn sub.annotations AnnotationRollingUpdateTarget != obj.name then
    false
  else true

/-- `subscriptionMapper.Map` (lines 69–130).  `listItems` are the items
the namespace list call produced and `listErr` says whether that call
returned an error; the error is only logged, so the loop runs over
whatever items were already known.  The self-entry is enqueued first,
then every rolling-update source, then the hosting subscription when its
name is non-empty. -/
def Map (listItems : List Subscription) (listErr : Bool) (obj : ObjMeta) :
    List NamespacedName :=
  let _ := listErr
  let requests : List NamespacedName := [⟨obj.ns, obj.name⟩]
  let requests := requests ++
    (listItems.filter (rollingTargets obj)).map (fun sub => ⟨sub.ns, sub.name⟩)
  match GetHostSubscriptionFromObject obj with
  | some hdplkey => if hdplkey.name ≠ "" then requests ++ [hdplkey] else requests
  | none => requests

/-! ## WebhookDispatcher (`github_events.go`) -/

/-- The repository descriptor carried by a push or pull-request event. -/
structure Repo where
  cloneURL : String
  htmlURL : String
  url : String
  fullName : String
deriving DecidableEq, Repr

/-- The parsed webhook event: `github.ParseWebHook` yields a
`*github.PushEvent`, a `*github.PullRequestEvent`, or some other type
the handler's switch does not handle. -/
inductive GithubEvent where
  | push (repo : Repo)
  | pullRequest (repo : Repo)
  | other
deriving DecidableEq, Repr

/-- A channel object: its type, its configured path and its
annotations. -/
structure Channel where
  ctype : String
  pathName : String
  annotations : List (String × String)
deriving DecidableEq, Repr

/-- `chnv1alpha1.ChannelTypeGitHub`. -/
def ChannelTypeGitHub : String := "GitHub"

/-- A secret object: its `Data` map (byte values as strings). -/
structure Secret where
  data : List (String × String)
deriving DecidableEq, Repr

/-- The store and library actions the webhook handler performs, recorded
as a trace so that "no store read happened" and "no trigger was emitted"
are statable. -/
inductive Action where
  | listSubscriptions
  | getChannel (ns name : String)
  | getSecret (ns name : String)
  | trigger (ns name : String)
deriving DecidableEq, Repr

/-- `WebhookListener.validateSecret` (lines 183–218).  `getSecret` is
the remote-client secret fetch, `unmarshal` is `yaml.Unmarshal` into a
string (fed `none` when the `secret` data field is absent, as happens
for the zero-valued Secret left by a failed fetch), and `validSig` is
`github.ValidateSignature` as a predicate on (signature, body, secret).
The Go function threads a `ret` flag that starts `true`, is cleared by
every failure and is never reset, and always ends by checking the
signature against whatever secret text was extracted (the empty string
when extraction failed).  Returns the flag and the secret-fetch actions
performed. -/
def validateSecret (getSecret : String → String → Except String Secret)
    (unmarshal : Option String → Except String String)
    (validSig : String → String → String → Bool)
    (signature : String) (annotations : List (String × String))
    (chNamespace : String) (body : String) : Bool × List Action :=
  let annVal := lookupStr annotations "webhook-secret"
  if annVal == "" then
    (false && validSig signature body "", [])
  else
    let acts := [Action.getSecret chNamespace annVal]
    let fetched : Option String × Bool :=
      match getSecret chNamespace annVal with
      | .ok secobj => (lookupData secobj.data "secret", true)
      | .error _ => (none, false)
    let extracted : String × Bool :=
      match unmarshal fetched.1 with
      | .ok s => if s == "" then ("", false) else (s, fetched.2)
      | .error _ => ("", false)
    (extracted.2 && validSig signature body extracted.1, acts)

/-- The channel-reference parse at the top of the per-subscription loop
(lines 71–84): a non-empty reference must split into exactly two
segments or the subscription is skipped (`none`); an empty reference is
not parsed at all and the loop continues with the empty namespace and
name. -/
def parseChannelRef (channel : String) : Option (String × String) :=
  if channel ≠ "" then
    match goSplitSlash channel with
    | [a, b] => some (a, b)
    | _ => none
  else some ("", "")

/-- The path test shared by the two event cases (lines 116–119 and
124–127): the configured path equals the clone, HTML or API URL, or
contains the repository full name. -/
def pathMatch (pathName : String) (repo : Repo) : Bool :=
  pathName == repo.cloneURL || pathName == repo.htmlURL || pathName == repo.url ||
    goContains pathName repo.fullName

/-- The signature gate of lines 108–112: the secret validation runs only
when the request carried a signature header; with no signature the gate
passes with no action taken. -/
def sigGate (getSecret : String → String → Except String Secret)
    (unmarshal : Option String → Except String String)
    (validSig : String → String → String → Bool)
    (signature : String) (annotations : List (String × String))
    (chNamespace : String) (body : String) : Bool × List Action :=
  if signature != "" then
    validateSecret getSecret unmarshal validSig signature annotations chNamespace body
  else (true, [])

/-- Steps c–g of the per-subscription loop (lines 103–134), entered once
the channel object has been fetched: the case-insensitive channel-type
gate, the signature gate (taken only when the request carried a
signature), the event-type switch and the path test.  Returns the
actions taken after the channel fetch. -/
def evalChannelSteps (getSecret : String → String → Except String Secret)
    (unmarshal : Option String → Except String String)
    (validSig : String → String → String → Bool)
    (signature : String) (body : String) (event : GithubEvent)
    (chNamespace : String) (subNs subName : String) (chobj : Channel) : List Action :=
  if !goEqualFold chobj.ctype ChannelTypeGitHub then []
  else
    let sigCheck : Bool × List Action :=
      sigGate getSecret unmarshal validSig signature chobj.annotations chNamespace body
    if !sigCheck.1 then sigCheck.2
    else
      match event with
      | .pullRequest repo =>
        if pathMatch chobj.pathName repo then sigCheck.2 ++ [Action.trigger subNs subName]
        else sigCheck.2
      | .push repo =>
        if pathMatch chobj.pathName repo then sigCheck.2 ++ [Action.trigger subNs subName]
        else sigCheck.2
      | .other => sigCheck.2

/-- One iteration of the per-subscription loop of `handleGithubWebhook`
(lines 68–135), as the trace of actions it performs; a skip for any
reason ends the iteration with whatever actions had been taken.
`getChannel` is the remote-client channel fetch. -/
def evalSubscription (getChannel : String → String → Except String Channel)
    (getSecret : String → String → Except String Secret)
    (unmarshal : Option String → Except String String)
    (validSig : String → String → String → Bool)
    (signature : String) (body : String) (event : GithubEvent)
    (sub : Subscription) : List Action :=
  match parseChannelRef sub.spec.channel with
  | none => []
  | some (chNamespace, chName) =>
    Action.getChannel chNamespace chName ::
      (match getChannel chNamespace chName with
       | .error _ => []
       | .ok chobj =>
         evalChannelSteps getSecret unmarshal validSig signature body event
           chNamespace sub.ns sub.name chobj)

/-- The inbound HTTP request as the handler sees it: the declared
content type, the SCM event-type header, the signature header, and the
outcome of reading the body. -/
structure HttpRequest where
  contentType : String
  webhookType : String
  signature : String
  bodyRead : Except String String
deriving Repr

/-- `payloadFormParam`. -/
def payloadFormParam : String := "payload"

/-- `WebhookListener.ParseRequest` (lines 141–181).  `parseQuery` is
`url.ParseQuery` returning the form lookup, `parseWebHook` is
`github.ParseWebHook` on (event type header, payload).  Yields the raw
body, the signature header and the parsed event, or the first error. -/
def ParseRequest (parseQuery : String → Except String (String → String))
    (parseWebHook : String → String → Except String GithubEvent)
    (r : HttpRequest) : Except String (String × String × GithubEvent) :=
  let payloadE : Except String (String × String) :=
    if r.contentType == "application/json" then
      match r.bodyRead with
      | .ok body => .ok (body, body)
      | .error e => .error e
    else if r.contentType == "application/x-www-form-urlencoded" then
      match r.bodyRead with
      | .ok body =>
        match parseQuery body with
        | .ok form => .ok (body, form payloadFormParam)
        | .error e => .error e
      | .error e => .error e
    else .error ("Unsupported Content-Type: " ++ r.contentType)
  match payloadE with
  | .error e => .error e
  | .ok (body, payload) =>
    match parseWebHook r.webhookType payload with
    | .error e => .error e
    | .ok event => .ok (body, r.signature, event)

/-- `WebhookListener.handleGithubWebhook` (lines 43–138): parse the
request (a failure aborts with that error and performs no store
action), list all subscriptions cluster-wide (a failure aborts with
that error), then evaluate every subscription independently.  Returns
the error the Go function returns together with the action trace. -/
def handleGithubWebhook (parseQuery : String → Except String (String → String))
    (parseWebHook : String → String → Except String GithubEvent)
    (getChannel : String → String → Except String Channel)
    (getSecret : String → String → Except String Secret)
    (unmarshal : Option String → Except String String)
    (validSig : String → String → String → Bool)
    (listSubs : Except String (List Subscription))
    (r : HttpRequest) : Option String × List Action :=
  match ParseRequest parseQuery parseWebHook r with
  | .error e => (some e, [])
  | .ok (body, signature, event) =>
    match listSubs with
    | .error e => (some e, [Action.listSubscriptions])
    | .ok items =>
      (none, Action.listSubscriptions ::
        items.flatMap (evalSubscription getChannel getSecret unmarshal validSig
          signature body event))
/-- The status `Reconcile` leaves on the in-memory object: untouched when
the recomputation changed nothing, otherwise the recomputed status with
the refreshed timestamp. -/
def finalStatus (sub : Subscription) (hubRes clearRes : Except String Unit) (now : Nat) :
    SubscriptionStatus :=
  let c := computeStatus sub hubRes clearRes
  if c = sub.status then c else { c with lastUpdateTime := now }

def stEx : SubscriptionStatus := ⟨"Propagated", "m", "r", 5, some [("/", 1), ("c1", 2)]⟩

def subHubEx : Subscription :=
  ⟨"ns1", "s1", none, ⟨"chns/chn", some ⟨some ⟨"n", "p"⟩, none, none, none⟩⟩, stEx⟩

def subHubExFailed : Subscription :=
  ⟨"ns1", "s1", none, ⟨"chns/chn", some ⟨some ⟨"n", "p"⟩, none, none, none⟩⟩,
    ⟨"Failed", "m", "boom", 9, some [("/", 1), ("c1", 2)]⟩⟩

def subLocalEx : Subscription :=
  ⟨"ns1", "s1", none, ⟨"chns/chn", some ⟨none, none, none, some true⟩⟩, stEx⟩

def subLocalExCleared : Subscription :=
  ⟨"ns1", "s1", none, ⟨"chns/chn", some ⟨none, none, none, some true⟩⟩,
    ⟨"", "", "", 9, some [("/", 1)]⟩⟩

/-- The specification's reading of the substring test: the configured
path contains the repository full name. -/
def SpecContains (s pat : String) : Prop := ∃ pre post : String, s = pre ++ pat ++ post

/-- The specification's reading of the whole path test (§4.3 step f). -/
def pathMatchSpec (pathName : String) (repo : Repo) : Prop :=
  pathName = repo.cloneURL ∨ pathName = repo.htmlURL ∨ pathName = repo.url ∨
    SpecContains pathName repo.fullName

def chEx : Channel := ⟨"GitHub", "https://github.com/org/repo", [("webhook-secret", "hook")]⟩

def gcEx : String → String → Except String Channel := fun a b =>
  if a == "chns" && b == "chn" then Except.ok chEx else Except.error "channel not found"

def gsEx : String → String → Except String Secret := fun _ _ =>
  Except.ok ⟨[("secret", "s3cr3t")]⟩

def uEx : Option String → Except String String := fun o =>
  match o with
  | some s => Except.ok s
  | none => Except.error "nil data"

def vEx : String → String → String → Bool := fun sig _ sec =>
  sig == "sha1=good" && sec == "s3cr3t"

def repoEx : Repo :=
  ⟨"https://github.com/org/repo.git", "https://github.com/org/repo",
    "https://api.github.com/repos/org/repo", "org/repo"⟩

def subWebEx : Subscription := ⟨"ns1", "s1", none, ⟨"chns/chn", none⟩, stEx⟩

def pqEx : String → Except String (String → String) := fun _ =>
  Except.error "no form parsing in this example"

def pwEx : String → String → Except String GithubEvent := fun _ _ =>
  Except.ok (GithubEvent.push repoEx)

def subEmptyChannelEx : Subscription := ⟨"ns1", "s1", none, ⟨"", none⟩, stEx⟩

def subBadChannelEx : Subscription := ⟨"ns1", "s1", none, ⟨"a/b/c", none⟩, stEx⟩

def subRollingEx : Subscription :=
  ⟨"ns1", "s2", some [(AnnotationRollingUpdateTarget, "s1")], ⟨"", none⟩, stEx⟩

def objEx : ObjMeta := ⟨"ns1", "s1", some [(AnnotationHostingSubscription, "hns/hname")]⟩
lemma Reconcile_found_finalSub (sub : Subscription) (hubRes clearRes : Except String Unit)
    (now : Nat) (updateRes : Except String Unit) :
    (Reconcile (.found sub) hubRes clearRes now updateRes).finalSub =
      some { sub with status := finalStatus sub hubRes clearRes now } := by
  cases updateRes <;> simp [Reconcile, finalStatus] <;> split <;> rfl

lemma Reconcile_found_wrote (sub : Subscription) (hubRes clearRes : Except String Unit)
    (now : Nat) (updateRes : Except String Unit) :
    (Reconcile (.found sub) hubRes clearRes now updateRes).wrote =
      decide (computeStatus sub hubRes clearRes ≠ sub.status) := by
  cases updateRes <;> simp [Reconcile] <;> split <;> simp_all

lemma finalStatus_phase (sub : Subscription) (hubRes clearRes : Except String Unit) (now : Nat) :
    (finalStatus sub hubRes clearRes now).phase = (computeStatus sub hubRes clearRes).phase := by
  simp only [finalStatus]; split <;> rfl

lemma finalStatus_reason (sub : Subscription) (hubRes clearRes : Except String Unit) (now : Nat) :
    (finalStatus sub hubRes clearRes now).reason = (computeStatus sub hubRes clearRes).reason := by
  simp only [finalStatus]; split <;> rfl

lemma finalStatus_message (sub : Subscription) (hubRes clearRes : Except String Unit) (now : Nat) :
    (finalStatus sub hubRes clearRes now).message = (computeStatus sub hubRes clearRes).message := by
  simp only [finalStatus]; split <;> rfl

lemma finalStatus_statuses (sub : Subscription) (hubRes clearRes : Except String Unit) (now : Nat) :
    (finalStatus sub hubRes clearRes now).statuses = (computeStatus sub hubRes clearRes).statuses := by
  simp only [finalStatus]; split <;> rfl

lemma hubStatus_stable (st : SubscriptionStatus) (hubRes : Except String Unit) (n : Nat) :
    hubStatus { hubStatus st hubRes with lastUpdateTime := n } hubRes =
      { hubStatus st hubRes with lastUpdateTime := n } := by
  cases hubRes <;> simp [hubStatus]

lemma hubStatus_idem (st : SubscriptionStatus) (hubRes : Except String Unit) :
    hubStatus (hubStatus st hubRes) hubRes = hubStatus st hubRes := by
  cases hubRes <;> simp [hubStatus]

lemma computeStatus_hub (sub : Subscription) (hubRes clearRes : Except String Unit)
    (h : isHubMode sub = true) :
    computeStatus sub hubRes clearRes = hubStatus sub.status hubRes := by
  simp [computeStatus, h]

lemma computeStatus_finalStatus_hub (sub : Subscription) (hubRes clearRes clearRes₂ : Except String Unit)
    (now : Nat) (h : isHubMode sub = true) :
    computeStatus { sub with status := finalStatus sub hubRes clearRes now } hubRes clearRes₂ =
      finalStatus sub hubRes clearRes now := by
  have hh : isHubMode { sub with status := finalStatus sub hubRes clearRes now } = true := h
  rw [computeStatus_hub _ _ _ hh]
  show hubStatus (finalStatus sub hubRes clearRes now) hubRes = _
  simp only [finalStatus, computeStatus_hub _ hubRes clearRes h]
  split
  · exact hubStatus_idem sub.status hubRes
  · exact hubStatus_stable sub.status hubRes now

/-- Claim C1: for every subscription whose placement specifies an explicit
cluster list, a cluster selector, or a placement reference (hub mode),
`Reconcile` runs the hub propagation routine and leaves phase
`Propagated` when it succeeded, and phase `Failed` with the reason equal
to (not appended with) the routine's error text when it failed. -/
theorem C1_hub_propagation_phase (sub : Subscription) (hubRes clearRes : Except String Unit)
    (now : Nat) (updateRes : Except String Unit) (sub₁ : Subscription)
    (hhub : isHubMode sub = true)
    (hfin : (Reconcile (FetchResult.found sub) hubRes clearRes now updateRes).finalSub = some sub₁) :
    (hubRes = Except.ok () → sub₁.status.phase = SubscriptionPropagated)
    ∧ (∀ e, hubRes = Except.error e →
        sub₁.status.phase = SubscriptionFailed ∧ sub₁.status.reason = e) := by
  rw [Reconcile_found_finalSub] at hfin
  have hsub : sub₁ = { sub with status := finalStatus sub hubRes clearRes now } :=
    (Option.some.injEq _ _).mp hfin.symm
  subst hsub
  constructor
  · intro hok
    show (finalStatus sub hubRes clearRes now).phase = _
    rw [finalStatus_phase, computeStatus_hub _ _ _ hhub, hok]
    rfl
  · intro e herr
    constructor
    · show (finalStatus sub hubRes clearRes now).phase = _
      rw [finalStatus_phase, computeStatus_hub _ _ _ hhub, herr]
      rfl
    · show (finalStatus sub hubRes clearRes now).reason = _
      rw [finalStatus_reason, computeStatus_hub _ _ _ hhub, herr]
      rfl

theorem C1_witness :
    ((Except.error "boom" : Except String Unit) = Except.ok () →
      subHubExFailed.status.phase = SubscriptionPropagated)
    ∧ (∀ e, (Except.error "boom" : Except String Unit) = Except.error e →
        subHubExFailed.status.phase = SubscriptionFailed
          ∧ subHubExFailed.status.reason = e) :=
  C1_hub_propagation_phase subHubEx (Except.error "boom") (Except.ok ()) 9 (Except.ok ())
    subHubExFailed (by decide) (by decide)

/-- Claim C2: `Reconcile` snapshots the status and issues a status write iff
the recomputed status differs from the snapshot; consequently, for a
hub-mode subscription, reconciling the object a first pass leaves (under
the same hub outcome) issues no further write. -/
theorem C2_write_iff_changed_and_idempotent (sub : Subscription)
    (hubRes clearRes clearRes₂ : Except String Unit) (now now₂ : Nat)
    (updateRes updateRes₂ : Except String Unit)
    (hhub : isHubMode sub = true) :
    ((Reconcile (FetchResult.found sub) hubRes clearRes now updateRes).wrote = true ↔
      computeStatus sub hubRes clearRes ≠ sub.status)
    ∧ (∀ sub₁,
        (Reconcile (FetchResult.found sub) hubRes clearRes now updateRes).finalSub = some sub₁ →
        (Reconcile (FetchResult.found sub₁) hubRes clearRes₂ now₂ updateRes₂).wrote = false) := by
  constructor
  · rw [Reconcile_found_wrote]; simp
  · intro sub₁ hfin
    rw [Reconcile_found_finalSub] at hfin
    have hsub : sub₁ = { sub with status := finalStatus sub hubRes clearRes now } :=
      (Option.some.injEq _ _).mp hfin.symm
    subst hsub
    rw [Reconcile_found_wrote]
    simp [computeStatus_finalStatus_hub sub hubRes clearRes clearRes₂ now hhub]

theorem C2_witness :
    ((Reconcile (FetchResult.found subHubEx) (Except.error "boom") (Except.ok ()) 9
        (Except.ok ())).wrote = true ↔
      computeStatus subHubEx (Except.error "boom") (Except.ok ()) ≠ subHubEx.status)
    ∧ (∀ sub₁,
        (Reconcile (FetchResult.found subHubEx) (Except.error "boom") (Except.ok ()) 9
          (Except.ok ())).finalSub = some sub₁ →
        (Reconcile (FetchResult.found sub₁) (Except.error "boom") (Except.ok ()) 11
          (Except.ok ())).wrote = false) :=
  C2_write_iff_changed_and_idempotent subHubEx (Except.error "boom") (Except.ok ())
    (Except.ok ()) 9 11 (Except.ok ()) (Except.ok ()) (by decide)

lemma nonHubStatus_statuses (st : SubscriptionStatus) (clearRes : Except String Unit) :
    (nonHubStatus st clearRes).statuses =
      st.statuses.map (fun l => l.filter (fun kv => kv.1 == localkey)) := by
  cases clearRes <;> simp only [nonHubStatus] <;> split <;> split <;> simp_all

/-- Claim C3: for a subscription whose placement selects no clusters, one pass
strips every per-cluster entry except the reserved local key, and when
the phase after the clear routine is neither `Failed` nor `Subscribed`,
resets phase, message and reason to empty. -/
theorem C3_demotion_clears_status (sub : Subscription) (hubRes clearRes : Except String Unit)
    (now : Nat) (updateRes : Except String Unit) (sub₁ : Subscription)
    (hnothub : isHubMode sub = false)
    (hfin : (Reconcile (FetchResult.found sub) hubRes clearRes now updateRes).finalSub = some sub₁) :
    sub₁.status.statuses =
      sub.status.statuses.map (fun l => l.filter (fun kv => kv.1 == localkey))
    ∧ (phaseAfterClear sub.status clearRes ≠ SubscriptionFailed →
       phaseAfterClear sub.status clearRes ≠ SubscriptionSubscribed →
       sub₁.status.phase = "" ∧ sub₁.status.message = "" ∧ sub₁.status.reason = "") := by
  rw [Reconcile_found_finalSub] at hfin
  have hsub : sub₁ = { sub with status := finalStatus sub hubRes clearRes now } :=
    (Option.some.injEq _ _).mp hfin.symm
  subst hsub
  have hcs : computeStatus sub hubRes clearRes = nonHubStatus sub.status clearRes := by
    simp [computeStatus, hnothub]
  constructor
  · show (finalStatus sub hubRes clearRes now).statuses = _
    rw [finalStatus_statuses, hcs, nonHubStatus_statuses]
  · intro h1 h2
    have hreset :
        (nonHubStatus sub.status clearRes).phase = ""
        ∧ (nonHubStatus sub.status clearRes).message = ""
        ∧ (nonHubStatus sub.status clearRes).reason = "" := by
      cases clearRes with
      | ok _ =>
        have hp : sub.status.phase ≠ SubscriptionFailed := h1
        have hs : sub.status.phase ≠ SubscriptionSubscribed := h2
        simp only [nonHubStatus, if_pos (And.intro hp hs)]
        cases sub.status.statuses <;> simp
      | error e => exact absurd rfl h1
    refine ⟨?_, ?_, ?_⟩
    · show (finalStatus sub hubRes clearRes now).phase = ""
      rw [finalStatus_phase, hcs]; exact hreset.1
    · show (finalStatus sub hubRes clearRes now).message = ""
      rw [finalStatus_message, hcs]; exact hreset.2.1
    · show (finalStatus sub hubRes clearRes now).reason = ""
      rw [finalStatus_reason, hcs]; exact hreset.2.2

theorem C3_witness :
    subLocalExCleared.status.statuses =
      subLocalEx.status.statuses.map (fun l => l.filter (fun kv => kv.1 == localkey))
    ∧ (phaseAfterClear subLocalEx.status (Except.ok ()) ≠ SubscriptionFailed →
       phaseAfterClear subLocalEx.status (Except.ok ()) ≠ SubscriptionSubscribed →
       subLocalExCleared.status.phase = "" ∧ subLocalExCleared.status.message = ""
         ∧ subLocalExCleared.status.reason = "") :=
  C3_demotion_clears_status subLocalEx (Except.ok ()) (Except.ok ()) 9 (Except.ok ())
    subLocalExCleared (by decide) (by decide)

/-- Claim C9: when the conditional status write is rejected by the store,
`Reconcile` returns no error and requests a fixed one-second
redelivery. -/
theorem C9_conflict_requeues_one_second (sub : Subscription)
    (hubRes clearRes : Except String Unit) (now : Nat) (e : String)
    (hdiff : computeStatus sub hubRes clearRes ≠ sub.status) :
    (Reconcile (FetchResult.found sub) hubRes clearRes now (Except.error e)).error = none
    ∧ (Reconcile (FetchResult.found sub) hubRes clearRes now (Except.error e)).result =
        { requeue := false, requeueAfter := oneSecond } := by
  simp [Reconcile, hdiff]

theorem C9_witness :
    (Reconcile (FetchResult.found subHubEx) (Except.error "boom") (Except.ok ()) 9
      (Except.error "conflict")).error = none
    ∧ (Reconcile (FetchResult.found subHubEx) (Except.error "boom") (Except.ok ()) 9
        (Except.error "conflict")).result = { requeue := false, requeueAfter := oneSecond } :=
  C9_conflict_requeues_one_second subHubEx (Except.error "boom") (Except.ok ()) 9 "conflict"
    (by decide)

/-- Claim C10: the last-update timestamp changes only as part of an actual
status write: an unchanged recomputed status leaves the object (and its
timestamp) untouched with no write, and a changed one refreshes the
timestamp to the current time on the written object. -/
theorem C10_timestamp_only_on_write (sub : Subscription)
    (hubRes clearRes : Except String Unit) (now : Nat) (updateRes : Except String Unit) :
    (computeStatus sub hubRes clearRes = sub.status →
      (Reconcile (FetchResult.found sub) hubRes clearRes now updateRes).wrote = false
      ∧ (Reconcile (FetchResult.found sub) hubRes clearRes now updateRes).finalSub = some sub)
    ∧ (computeStatus sub hubRes clearRes ≠ sub.status →
      (Reconcile (FetchResult.found sub) hubRes clearRes now updateRes).wrote = true
      ∧ (Reconcile (FetchResult.found sub) hubRes clearRes now updateRes).finalSub =
          some { sub with status :=
            { computeStatus sub hubRes clearRes with lastUpdateTime := now } }) := by
  constructor
  · intro heq
    refine ⟨?_, ?_⟩
    · rw [Reconcile_found_wrote]; simp [heq]
    · rw [Reconcile_found_finalSub]
      simp [finalStatus, heq]
  · intro hne
    refine ⟨?_, ?_⟩
    · rw [Reconcile_found_wrote]; simp [hne]
    · rw [Reconcile_found_finalSub]
      simp only [finalStatus, if_neg hne]

theorem C10_witness :
    (computeStatus subHubEx (Except.ok ()) (Except.ok ()) = subHubEx.status →
      (Reconcile (FetchResult.found subHubEx) (Except.ok ()) (Except.ok ()) 9
        (Except.ok ())).wrote = false
      ∧ (Reconcile (FetchResult.found subHubEx) (Except.ok ()) (Except.ok ()) 9
          (Except.ok ())).finalSub = some subHubEx)
    ∧ (computeStatus subHubEx (Except.ok ()) (Except.ok ()) ≠ subHubEx.status →
      (Reconcile (FetchResult.found subHubEx) (Except.ok ()) (Except.ok ()) 9
        (Except.ok ())).wrote = true
      ∧ (Reconcile (FetchResult.found subHubEx) (Except.ok ()) (Except.ok ()) 9
          (Except.ok ())).finalSub =
          some { subHubEx with status :=
            { computeStatus subHubEx (Except.ok ()) (Except.ok ()) with lastUpdateTime := 9 } }) :=
  C10_timestamp_only_on_write subHubEx (Except.ok ()) (Except.ok ()) 9 (Except.ok ())

lemma lookupAnn_none (k : String) : lookupAnn none k = "" := rfl

lemma rollingTargets_iff (obj : ObjMeta) (sub : Subscription) :
    rollingTargets obj sub = true ↔
      (lookupAnn sub.annotations AnnotationRollingUpdateTarget = obj.name
        ∧ lookupAnn sub.annotations AnnotationRollingUpdateTarget ≠ "") := by
  cases h : sub.annotations with
  | none => simp [rollingTargets, h, lookupAnn]
  | some m =>
    simp only [rollingTargets, h]
    by_cases h1 : lookupStr m AnnotationRollingUpdateTarget = ""
    · simp [h1, lookupAnn]
    · by_cases h2 : lookupStr m AnnotationRollingUpdateTarget = obj.name <;>
        simp [h1, h2, lookupAnn]

/-- Claim C4: `Map` always returns the changed identity first (also on a
listing error, which it ignores apart from logging), adds every
subscription of the listed items whose rolling-update-target annotation
names the changed object, and adds the hosting subscription exactly when
the back-reference carries a non-empty name — nothing else, and with no
multi-hop resolution. -/
theorem C4_expand_characterization (listItems : List Subscription) (listErr : Bool)
    (obj : ObjMeta) :
    Map listItems listErr obj = Map listItems false obj
    ∧ (Map listItems listErr obj).head? = some ⟨obj.ns, obj.name⟩
    ∧ (∀ k, k ∈ Map listItems listErr obj ↔
        (k = ⟨obj.ns, obj.name⟩
        ∨ (∃ sub ∈ listItems,
            lookupAnn sub.annotations AnnotationRollingUpdateTarget = obj.name
            ∧ lookupAnn sub.annotations AnnotationRollingUpdateTarget ≠ ""
            ∧ k = ⟨sub.ns, sub.name⟩)
        ∨ (∃ h, GetHostSubscriptionFromObject obj = some h ∧ h.name ≠ "" ∧ k = h)))
    ∧ (obj.name ≠ "" → ∀ k, k ∈ Map listItems listErr obj ↔
        (k = ⟨obj.ns, obj.name⟩
        ∨ (∃ sub ∈ listItems,
            lookupAnn sub.annotations AnnotationRollingUpdateTarget = obj.name
            ∧ k = ⟨sub.ns, sub.name⟩)
        ∨ (∃ h, GetHostSubscriptionFromObject obj = some h ∧ h.name ≠ "" ∧ k = h))) := by
  have hchar : ∀ k, k ∈ Map listItems listErr obj ↔
      (k = ⟨obj.ns, obj.name⟩
      ∨ (∃ sub ∈ listItems,
          lookupAnn sub.annotations AnnotationRollingUpdateTarget = obj.name
          ∧ lookupAnn sub.annotations AnnotationRollingUpdateTarget ≠ ""
          ∧ k = ⟨sub.ns, sub.name⟩)
      ∨ (∃ h, GetHostSubscriptionFromObject obj = some h ∧ h.name ≠ "" ∧ k = h)) := by
    intro k
    simp only [Map]
    cases hh : GetHostSubscriptionFromObject obj with
    | none =>
      simp only [List.mem_append, List.mem_singleton, List.mem_map, List.mem_filter]
      constructor
      · rintro (hk | ⟨sub, ⟨hmem, htgt⟩, hk⟩)
        · exact Or.inl hk
        · exact Or.inr (Or.inl ⟨sub, hmem, ((rollingTargets_iff obj sub).mp htgt).1,
            ((rollingTargets_iff obj sub).mp htgt).2, hk.symm⟩)
      · rintro (hk | ⟨sub, hmem, h1, h2, hk⟩ | ⟨h, hhost, _, _⟩)
        · exact Or.inl hk
        · exact Or.inr ⟨sub, ⟨hmem, (rollingTargets_iff obj sub).mpr ⟨h1, h2⟩⟩, hk.symm⟩
        · exact absurd hhost (by simp [hh])
    | some hk =>
      by_cases hname : hk.name = ""
      · simp only [hname, ne_eq, not_true_eq_false, if_false,
          List.mem_append, List.mem_singleton, List.mem_map, List.mem_filter]
        constructor
        · rintro (hkk | ⟨sub, ⟨hmem, htgt⟩, hkk⟩)
          · exact Or.inl hkk
          · exact Or.inr (Or.inl ⟨sub, hmem, ((rollingTargets_iff obj sub).mp htgt).1,
              ((rollingTargets_iff obj sub).mp htgt).2, hkk.symm⟩)
        · rintro (hkk | ⟨sub, hmem, h1, h2, hkk⟩ | ⟨h, hhost, hne, _⟩)
          · exact Or.inl hkk
          · exact Or.inr ⟨sub, ⟨hmem, (rollingTargets_iff obj sub).mpr ⟨h1, h2⟩⟩, hkk.symm⟩
          · cases (Option.some.injEq _ _).mp hhost
            exact absurd hname hne
      · simp only [hname, ne_eq, not_false_eq_true, if_true,
          List.mem_append, List.mem_singleton, List.mem_map, List.mem_filter]
        constructor
        · rintro ((hkk | ⟨sub, ⟨hmem, htgt⟩, hkk⟩) | hkk)
          · exact Or.inl hkk
          · exact Or.inr (Or.inl ⟨sub, hmem, ((rollingTargets_iff obj sub).mp htgt).1,
              ((rollingTargets_iff obj sub).mp htgt).2, hkk.symm⟩)
          · exact Or.inr (Or.inr ⟨hk, rfl, hname, hkk⟩)
        · rintro (hkk | ⟨sub, hmem, h1, h2, hkk⟩ | ⟨h, hhost, hne, hkk⟩)
          · exact Or.inl (Or.inl hkk)
          · exact Or.inl (Or.inr ⟨sub, ⟨hmem, (rollingTargets_iff obj sub).mpr ⟨h1, h2⟩⟩, hkk.symm⟩)
          · cases (Option.some.injEq _ _).mp hhost
            exact Or.inr hkk
  refine ⟨rfl, ?_, hchar, ?_⟩
  · simp only [Map]
    cases GetHostSubscriptionFromObject obj with
    | none => rfl
    | some hk => by_cases hname : hk.name = "" <;> simp [hname]
  · intro hname0 k
    rw [hchar k]
    constructor
    · rintro (h | ⟨sub, hmem, h1, h2, hk⟩ | h)
      · exact Or.inl h
      · exact Or.inr (Or.inl ⟨sub, hmem, h1, hk⟩)
      · exact Or.inr (Or.inr h)
    · rintro (h | ⟨sub, hmem, h1, hk⟩ | h)
      · exact Or.inl h
      · refine Or.inr (Or.inl ⟨sub, hmem, h1, ?_, hk⟩)
        rw [h1]; exact hname0
      · exact Or.inr (Or.inr h)

lemma evalSubscription_parse_none (gc : String → String → Except String Channel)
    (gs : String → String → Except String Secret)
    (u : Option String → Except String String) (v : String → String → String → Bool)
    (sig body : String) (ev : GithubEvent) {sub : Subscription}
    (h : parseChannelRef sub.spec.channel = none) :
    evalSubscription gc gs u v sig body ev sub = [] := by
  simp [evalSubscription, h]

lemma evalSubscription_chErr {gc : String → String → Except String Channel}
    (gs : String → String → Except String Secret)
    (u : Option String → Except String String) (v : String → String → String → Bool)
    (sig body : String) (ev : GithubEvent) {sub : Subscription} {a b e : String}
    (hparse : parseChannelRef sub.spec.channel = some (a, b))
    (hch : gc a b = Except.error e) :
    evalSubscription gc gs u v sig body ev sub = [Action.getChannel a b] := by
  simp [evalSubscription, hparse, hch]

lemma evalSubscription_chOk {gc : String → String → Except String Channel}
    (gs : String → String → Except String Secret)
    (u : Option String → Except String String) (v : String → String → String → Bool)
    (sig body : String) (ev : GithubEvent) {sub : Subscription} {a b : String}
    {chobj : Channel}
    (hparse : parseChannelRef sub.spec.channel = some (a, b))
    (hch : gc a b = Except.ok chobj) :
    evalSubscription gc gs u v sig body ev sub =
      Action.getChannel a b ::
        evalChannelSteps gs u v sig body ev a sub.ns sub.name chobj := by
  simp [evalSubscription, hparse, hch]

lemma validateSecret_no_trigger (gs : String → String → Except String Secret)
    (u : Option String → Except String String) (v : String → String → String → Bool)
    (sig : String) (ann : List (String × String)) (cns body x y : String) :
    Action.trigger x y ∉ (validateSecret gs u v sig ann cns body).2 := by
  by_cases hann : lookupStr ann "webhook-secret" = ""
  · simp [validateSecret, hann]
  · simp [validateSecret, hann]

lemma sigGate_validate {gs : String → String → Except String Secret}
    {u : Option String → Except String String} {v : String → String → String → Bool}
    {signature : String} (ann : List (String × String)) (cns body : String)
    (hsig : signature ≠ "") :
    sigGate gs u v signature ann cns body = validateSecret gs u v signature ann cns body := by
  simp [sigGate, bne_iff_ne, hsig]

lemma sigGate_pass {gs : String → String → Except String Secret}
    {u : Option String → Except String String} {v : String → String → String → Bool}
    {signature : String} {ann : List (String × String)} {cns body : String}
    (hsig : signature = "" ∨ (validateSecret gs u v signature ann cns body).1 = true) :
    (sigGate gs u v signature ann cns body).1 = true := by
  rcases hsig with h | h
  · simp [sigGate, h]
  · by_cases hsigE : signature = ""
    · simp [sigGate, hsigE]
    · rw [sigGate_validate ann cns body hsigE]; exact h

lemma sigGate_no_trigger (gs : String → String → Except String Secret)
    (u : Option String → Except String String) (v : String → String → String → Bool)
    (signature : String) (ann : List (String × String)) (cns body x y : String) :
    Action.trigger x y ∉ (sigGate gs u v signature ann cns body).2 := by
  by_cases hsigE : signature = ""
  · simp [sigGate, hsigE]
  · rw [sigGate_validate ann cns body hsigE]
    exact validateSecret_no_trigger gs u v signature ann cns body x y

lemma trigger_mem_steps_validate {gs : String → String → Except String Secret}
    {u : Option String → Except String String} {v : String → String → String → Bool}
    {signature body : String} {ev : GithubEvent} {cns sns snm : String} {chobj : Channel}
    {x y : String}
    (hsig : signature ≠ "")
    (h : Action.trigger x y ∈ evalChannelSteps gs u v signature body ev cns sns snm chobj) :
    (validateSecret gs u v signature chobj.annotations cns body).1 = true := by
  simp only [evalChannelSteps] at h
  by_cases htype : goEqualFold chobj.ctype ChannelTypeGitHub
  · rw [if_neg (by simp [htype])] at h
    by_cases hval : (validateSecret gs u v signature chobj.annotations cns body).1 = true
    · exact hval
    · exfalso
      rw [if_pos (by simp [sigGate_validate chobj.annotations cns body hsig, hval])] at h
      rw [sigGate_validate chobj.annotations cns body hsig] at h
      exact validateSecret_no_trigger gs u v signature chobj.annotations cns body x y h
  · rw [if_pos (by simp [htype])] at h
    simp at h

/-- Claim C5: with a signature header present, a subscription triggers only if
`validateSecret` accepted it; `validateSecret` accepts exactly when the
channel's webhook-secret annotation resolves to a secret whose decoded
`secret` field is non-empty and the signature is a valid HMAC of the raw
body under it; with no signature header the whole verification step is
bypassed (the loop's outcome does not depend on the secret store, the
yaml decoder or the signature primitive at all). -/
theorem C5_signature_verification :
    (∀ getChannel gs₁ gs₂ u₁ u₂ v₁ v₂ body event sub,
      evalSubscription getChannel gs₁ u₁ v₁ "" body event sub =
        evalSubscription getChannel gs₂ u₂ v₂ "" body event sub)
    ∧ (∀ getChannel getSecret unmarshal validSig signature body event sub,
        signature ≠ "" →
        Action.trigger sub.ns sub.name ∈
          evalSubscription getChannel getSecret unmarshal validSig signature body event sub →
        ∃ chNamespace chName chobj,
          parseChannelRef sub.spec.channel = some (chNamespace, chName)
          ∧ getChannel chNamespace chName = Except.ok chobj
          ∧ (validateSecret getSecret unmarshal validSig signature chobj.annotations
              chNamespace body).1 = true)
    ∧ (∀ getSecret unmarshal validSig signature annotations chNamespace body,
        (validateSecret getSecret unmarshal validSig signature annotations
          chNamespace body).1 = true ↔
        (lookupStr annotations "webhook-secret" ≠ ""
          ∧ ∃ secobj, getSecret chNamespace (lookupStr annotations "webhook-secret") =
              Except.ok secobj
          ∧ ∃ s, unmarshal (lookupData secobj.data "secret") = Except.ok s
          ∧ s ≠ "" ∧ validSig signature body s = true)) := by
  refine ⟨?_, ?_, ?_⟩
  · intro getChannel gs₁ gs₂ u₁ u₂ v₁ v₂ body event sub
    cases hparse : parseChannelRef sub.spec.channel with
    | none =>
      rw [evalSubscription_parse_none getChannel gs₁ u₁ v₁ "" body event hparse,
        evalSubscription_parse_none getChannel gs₂ u₂ v₂ "" body event hparse]
    | some p =>
      obtain ⟨a, b⟩ := p
      cases hch : getChannel a b with
      | error e =>
        rw [evalSubscription_chErr gs₁ u₁ v₁ "" body event hparse hch,
          evalSubscription_chErr gs₂ u₂ v₂ "" body event hparse hch]
      | ok chobj =>
        rw [evalSubscription_chOk gs₁ u₁ v₁ "" body event hparse hch,
          evalSubscription_chOk gs₂ u₂ v₂ "" body event hparse hch]
        simp [evalChannelSteps, sigGate]
  · intro getChannel getSecret unmarshal validSig signature body event sub hsig htrig
    cases hparse : parseChannelRef sub.spec.channel with
    | none =>
      rw [evalSubscription_parse_none getChannel getSecret unmarshal validSig signature
        body event hparse] at htrig
      simp at htrig
    | some p =>
      obtain ⟨a, b⟩ := p
      cases hch : getChannel a b with
      | error e =>
        rw [evalSubscription_chErr getSecret unmarshal validSig signature body event
          hparse hch] at htrig
        simp at htrig
      | ok chobj =>
        rw [evalSubscription_chOk getSecret unmarshal validSig signature body event
          hparse hch] at htrig
        rcases List.mem_cons.mp htrig with h | h
        · exact absurd h (by simp)
        · exact ⟨a, b, chobj, rfl, hch, trigger_mem_steps_validate hsig h⟩
  · intro getSecret unmarshal validSig signature annotations chNamespace body
    by_cases hann : lookupStr annotations "webhook-secret" = ""
    · simp [validateSecret, hann]
    · simp only [validateSecret, hann]
      rw [if_neg (by simp [hann])]
      cases hget : getSecret chNamespace (lookupStr annotations "webhook-secret") with
      | error e =>
        cases hu : unmarshal none with
        | ok s => by_cases hs : s = "" <;> simp [hget, hu, hs, hann]
        | error e2 => simp [hget, hu, hann]
      | ok secobj =>
        cases hu : unmarshal (lookupData secobj.data "secret") with
        | ok s => by_cases hs : s = "" <;> simp [hget, hu, hs, hann]
        | error e2 => simp [hget, hu, hann]

lemma infixAt_iff (pat l : List Char) :
    infixAt pat l = true ↔ ∃ l₁ l₂, l = l₁ ++ (pat ++ l₂) := by
  induction l with
  | nil =>
    simp only [infixAt, List.isEmpty_iff]
    constructor
    · intro h; exact ⟨[], [], by simp [h]⟩
    · rintro ⟨l₁, l₂, h⟩
      rcases List.append_eq_nil.mp h.symm with ⟨h1, h2⟩
      rcases List.append_eq_nil.mp h2 with ⟨h3, _⟩
      exact h3
  | cons c cs ih =>
    simp only [infixAt, Bool.or_eq_true, List.isPrefixOf_iff_prefix, ih]
    constructor
    · rintro (h | ⟨l₁, l₂, h⟩)
      · rcases h with ⟨t, ht⟩
        exact ⟨[], t, by simp [ht]⟩
      · exact ⟨c :: l₁, l₂, by simp [h]⟩
    · rintro ⟨l₁, l₂, h⟩
      cases l₁ with
      | nil => exact Or.inl ⟨l₂, by simpa using h.symm⟩
      | cons c' l₁' =>
        rcases List.cons.injEq c cs c' (l₁' ++ (pat ++ l₂)) ▸ h with h'
        simp only [List.cons_append, List.cons.injEq] at h
        exact Or.inr ⟨l₁', l₂, h.2⟩

lemma goContains_iff (s pat : String) : goContains s pat = true ↔ SpecContains s pat := by
  unfold goContains SpecContains
  rw [infixAt_iff]
  constructor
  · rintro ⟨l₁, l₂, h⟩
    refine ⟨⟨l₁⟩, ⟨l₂⟩, String.ext ?_⟩
    simp [String.data_append, h]
  · rintro ⟨pre, post, h⟩
    exact ⟨pre.data, post.data, by rw [h]; simp [String.data_append]⟩

lemma pathMatch_iff (p : String) (repo : Repo) :
    pathMatch p repo = true ↔ pathMatchSpec p repo := by
  simp only [pathMatch, pathMatchSpec, Bool.or_eq_true, beq_iff_eq, goContains_iff, or_assoc]

lemma evalChannelSteps_trigger_iff
    {gs : String → String → Except String Secret}
    {u : Option String → Except String String} {v : String → String → String → Bool}
    {signature body : String} {event : GithubEvent} {cns sns snm : String}
    {chobj : Channel} {repo : Repo}
    (htype : goEqualFold chobj.ctype ChannelTypeGitHub = true)
    (hsig : signature = ""
      ∨ (validateSecret gs u v signature chobj.annotations cns body).1 = true)
    (hevent : event = GithubEvent.push repo ∨ event = GithubEvent.pullRequest repo) :
    (Action.trigger sns snm ∈
      evalChannelSteps gs u v signature body event cns sns snm chobj) ↔
      pathMatch chobj.pathName repo = true := by
  simp only [evalChannelSteps]
  rw [if_neg (by simp [htype])]
  rw [if_neg (by simp [sigGate_pass hsig])]
  have hnt := sigGate_no_trigger gs u v signature chobj.annotations cns body sns snm
  rcases hevent with he | he <;> subst he <;>
    by_cases hpm : pathMatch chobj.pathName repo = true <;>
    simp [hpm, hnt]

/-- Claim C6: for a push or pull-request event that reaches the path-matching
step (channel parsed and fetched, type GitHub, signature absent or
valid), the subscription triggers iff the channel's configured path
equals the event repository's clone, HTML or API URL, or contains its
"owner/repo" full name as a substring. -/
theorem C6_path_matching (gc : String → String → Except String Channel)
    (gs : String → String → Except String Secret)
    (u : Option String → Except String String) (v : String → String → String → Bool)
    (signature body : String) (sub : Subscription) (a b : String) (chobj : Channel)
    (repo : Repo) (event : GithubEvent)
    (hparse : parseChannelRef sub.spec.channel = some (a, b))
    (hch : gc a b = Except.ok chobj)
    (htype : goEqualFold chobj.ctype ChannelTypeGitHub = true)
    (hsig : signature = ""
      ∨ (validateSecret gs u v signature chobj.annotations a body).1 = true)
    (hevent : event = GithubEvent.push repo ∨ event = GithubEvent.pullRequest repo) :
    (Action.trigger sub.ns sub.name ∈
      evalSubscription gc gs u v signature body event sub) ↔
      pathMatchSpec chobj.pathName repo := by
  rw [evalSubscription_chOk gs u v signature body event hparse hch, List.mem_cons,
    ← pathMatch_iff]
  constructor
  · rintro (h | h)
    · exact absurd h (by simp)
    · exact (evalChannelSteps_trigger_iff htype hsig hevent).mp h
  · intro h
    exact Or.inr ((evalChannelSteps_trigger_iff htype hsig hevent).mpr h)

theorem C5_witness :
    (validateSecret gsEx uEx vEx "sha1=good" [("webhook-secret", "hook")] "chns" "body").1 =
      true :=
  (C5_signature_verification.2.2 gsEx uEx vEx "sha1=good" [("webhook-secret", "hook")]
    "chns" "body").mpr
    ⟨by decide, ⟨[("secret", "s3cr3t")]⟩, rfl, "s3cr3t", rfl, by decide, rfl⟩

theorem C6_witness :
    (Action.trigger subWebEx.ns subWebEx.name ∈
      evalSubscription gcEx gsEx uEx vEx "" "body" (GithubEvent.push repoEx) subWebEx) ↔
      pathMatchSpec chEx.pathName repoEx :=
  C6_path_matching gcEx gsEx uEx vEx "" "body" subWebEx "chns" "chn" chEx repoEx
    (GithubEvent.push repoEx) (by decide) rfl (by decide) (Or.inl rfl) (Or.inl rfl)

lemma ParseRequest_badContentType (pq : String → Except String (String → String))
    (pw : String → String → Except String GithubEvent) (r : HttpRequest)
    (h1 : r.contentType ≠ "application/json")
    (h2 : r.contentType ≠ "application/x-www-form-urlencoded") :
    ParseRequest pq pw r = Except.error ("Unsupported Content-Type: " ++ r.contentType) := by
  simp only [ParseRequest]
  rw [if_neg (by simp [h1]), if_neg (by simp [h2])]

/-- Claim C7: a request with an unsupported declared content type is rejected
with an error before the subscription list call, with no store action and
no trigger; a parse failure likewise aborts with no action; a cluster-wide
subscription listing failure aborts the request with that error after only
the list call. -/
theorem C7_fatal_request_errors :
    (∀ pq pw gc gs u v ls (r : HttpRequest),
      r.contentType ≠ "application/json" →
      r.contentType ≠ "application/x-www-form-urlencoded" →
      handleGithubWebhook pq pw gc gs u v ls r =
        (some ("Unsupported Content-Type: " ++ r.contentType), []))
    ∧ (∀ pq pw gc gs u v ls r e, ParseRequest pq pw r = Except.error e →
        handleGithubWebhook pq pw gc gs u v ls r = (some e, []))
    ∧ (∀ pq pw gc gs u v e r bse, ParseRequest pq pw r = Except.ok bse →
        handleGithubWebhook pq pw gc gs u v (Except.error e) r =
          (some e, [Action.listSubscriptions])) := by
  refine ⟨?_, ?_, ?_⟩
  · intro pq pw gc gs u v ls r h1 h2
    simp [handleGithubWebhook, ParseRequest_badContentType pq pw r h1 h2]
  · intro pq pw gc gs u v ls r e herr
    simp [handleGithubWebhook, herr]
  · intro pq pw gc gs u v e r bse hok
    obtain ⟨b1, b2, b3⟩ := bse
    simp [handleGithubWebhook, hok]

theorem C7_witness :
    handleGithubWebhook pqEx pwEx gcEx gsEx uEx vEx (Except.ok [subWebEx])
      ⟨"text/plain", "push", "", Except.ok "b"⟩ =
      (some ("Unsupported Content-Type: " ++ "text/plain"), []) :=
  C7_fatal_request_errors.1 pqEx pwEx gcEx gsEx uEx vEx (Except.ok [subWebEx])
    ⟨"text/plain", "push", "", Except.ok "b"⟩ (by decide) (by decide)

/-- Claim C8, counterexample: a subscription whose channel reference is the empty
string — which does not consist of exactly two slash-separated segments —
is not skipped before the channel fetch: the loop proceeds to fetch the
channel under the empty namespace and name, because the two-segment parse
of lines 76–83 only runs for a non-empty reference. -/
theorem C8_counterexample :
    (goSplitSlash subEmptyChannelEx.spec.channel).length ≠ 2
    ∧ Action.getChannel "" "" ∈
        evalSubscription gcEx gsEx uEx vEx "" "body" (GithubEvent.push repoEx)
          subEmptyChannelEx := by
  constructor
  · decide
  · decide

/-- Claim C8 as amended: every subscription whose channel reference is non-empty
and does not split into exactly two slash-separated segments is skipped —
with no channel fetch and no trigger — and the loop moves on; a
subscription with an empty channel reference instead proceeds to a channel
fetch under the empty namespace and name. -/
theorem C8_malformed_channel_skipped (gc : String → String → Except String Channel)
    (gs : String → String → Except String Secret)
    (u : Option String → Except String String) (v : String → String → String → Bool)
    (sig body : String) (ev : GithubEvent) (sub : Subscription)
    (hne : sub.spec.channel ≠ "")
    (hsplit : (goSplitSlash sub.spec.channel).length ≠ 2) :
    evalSubscription gc gs u v sig body ev sub = [] := by
  apply evalSubscription_parse_none
  simp only [parseChannelRef]
  rw [if_pos hne]
  cases hl : goSplitSlash sub.spec.channel with
  | nil => rfl
  | cons a t =>
    cases t with
    | nil => rfl
    | cons b t2 =>
      cases t2 with
      | nil => rw [hl] at hsplit; simp at hsplit
      | cons c t3 => rfl

theorem C8_witness :
    evalSubscription gcEx gsEx uEx vEx "" "body" (GithubEvent.push repoEx)
      subBadChannelEx = [] :=
  C8_malformed_channel_skipped gcEx gsEx uEx vEx "" "body" (GithubEvent.push repoEx)
    subBadChannelEx (by decide) (by decide)

theorem C4_witness :
    NamespacedName.mk "hns" "hname" ∈ Map [subRollingEx] true objEx ↔
      (NamespacedName.mk "hns" "hname" = ⟨objEx.ns, objEx.name⟩
      ∨ (∃ sub ∈ [subRollingEx],
          lookupAnn sub.annotations AnnotationRollingUpdateTarget = objEx.name
          ∧ NamespacedName.mk "hns" "hname" = ⟨sub.ns, sub.name⟩)
      ∨ (∃ h, GetHostSubscriptionFromObject objEx = some h ∧ h.name ≠ ""
          ∧ NamespacedName.mk "hns" "hname" = h)) :=
  (C4_expand_characterization [subRollingEx] true objEx).2.2.2 (by decide) ⟨"hns", "hname"⟩

end MCOSub
